import Mathlib

/-!
Verification development for the Vacuum_Monitor repository.

The Python sources are shallowly embedded: bytes are `Nat` values below 256,
byte strings are `List Nat`, the mutable `PackageHandler` object becomes the
explicit record `CodecState` (plus a separate message-queue / buffer record
`HandlerState`), and each method becomes a pure function returning its new
state together with the bytes it transmitted.  Python's `bytes.find` is
`findSub`, Python slices become `List.drop`/`List.take` (whose saturating
behaviour matches Python slicing for the index arithmetic that occurs here),
and exceptions swallowed by a `try/except` handler become normal returns of
the state at the point the exception was raised.
-/

namespace VacuumMonitor

/-- One round of the reflected CRC-8/MAXIM bit loop: shift right, xor the
reflected polynomial 0x8C when the bit shifted out was set. -/
def crcRound (c : Nat) : Nat :=
  if c % 2 = 1 then (c / 2) ^^^ 0x8C else c / 2

/-- Fold one input byte into the CRC state (reflected input, as in
crcmod's predefined crc-8-maxim). -/
def crc8_update (c b : Nat) : Nat :=
  crcRound^[8] (c ^^^ b)

/-- The crc-8-maxim function built in `PackageHandler.__init__` via
`mkPredefinedCrcFun('crc-8-maxim')`: polynomial 0x31 reflected, init 0x00,
xor-out 0x00. -/
def crc8 (data : List Nat) : Nat :=
  data.foldl crc8_update 0

/-- Byte constants of `PackageHandler.__init__`: `self.ack`. -/
def ack : List Nat := [0x10, 0x06]

/-- Byte constants of `PackageHandler.__init__`: `self.header`. -/
def header : List Nat := [0x10, 0x02]

/-- Byte constants of `PackageHandler.__init__`: `self.msg_done`. -/
def msg_done : List Nat := [0x10, 0x03]

/-- Python `buf.find(pat, start)`: the least index `i ≥ start` at which `pat`
occurs inside `buf`, as an `Option` (Python's -1 becomes `none`). -/
def findSub (buf pat : List Nat) (start : Nat) : Option Nat :=
  (List.range (buf.length + 1)).find?
    (fun i => decide (start ≤ i) && pat.isPrefixOf (buf.drop i))

/-- Counter bump shared by both counters: `cur += 1; if cur > 7: cur = 4`. -/
def bumpCounter (n : Nat) : Nat :=
  if n + 1 > 7 then 4 else n + 1

/-- Mutable fields of `PackageHandler` that the counter engine and codec
touch (`send_counter_val`, `receive_counter_val`); the receive counter is
`None` until the handshake sets it. -/
structure CodecState where
  send_counter_val : Nat
  receive_counter_val : Option Nat
deriving Repr, DecidableEq

/-- State of a freshly constructed `PackageHandler`: send counter 4,
receive counter unset. -/
def freshState : CodecState := { send_counter_val := 4, receive_counter_val := none }

/-- `increment_send_counter`: returns the value before the bump and the
state after it. -/
def increment_send_counter (st : CodecState) : Nat × CodecState :=
  (st.send_counter_val, { st with send_counter_val := bumpCounter st.send_counter_val })

/-- `increment_receive_counter`: a no-op returning `none` while the counter
is unset, otherwise returns the old value and bumps. -/
def increment_receive_counter (st : CodecState) : Option Nat × CodecState :=
  match st.receive_counter_val with
  | none => (none, st)
  | some v => (some v, { st with receive_counter_val := some (bumpCounter v) })

/-- Value of Python `int(f"{p:X}{d}", 16)` for a hex digit `p` and a counter
value `d ≤ 15` (the counters never exceed 15): for `d ≤ 9` the rendered
string is two hex digits, for `10 ≤ d ≤ 15` the decimal rendering of `d`
spans two characters. -/
def hexTag (p d : Nat) : Nat :=
  if d < 10 then 16 * p + d else 256 * p + 16 + (d - 10)

/-- `calc_crc`: CRC over `msg[2:end]` where `end = msg.find(msg_done)`;
when `find` misses, Python's -1 makes the slice `msg[2:-1]`.  (The
`except` arm of the source is unreachable: `crc8` never raises.) -/
def calc_crc (msg : List Nat) : Nat :=
  let endIdx := match findSub msg msg_done 0 with
    | some e => e
    | none => msg.length - 1
  crc8 ((msg.drop 2).take (endIdx - 2))

/-- `gen_crc`: the same slice as `calc_crc`, wrapped as a single byte. -/
def gen_crc (msg : List Nat) : List Nat := [calc_crc msg]

/-- `send_msg(id_high, id_low, payload_high, payload_low)`: builds
`HDR | 0x4c | 0x0B | 0x01 | id_high | id_low | payload_high | payload_low |
EOM | crc` (with `c` the send-counter value used) and returns the new state
together with the transmitted bytes. -/
def send_msg (st : CodecState) (id_high id_low payload_high payload_low : Nat) :
    CodecState × List Nat :=
  let r := increment_send_counter st
  let byte3 := hexTag 4 r.1
  let msg := header ++ [byte3, 0x0B, 0x01, id_high, id_low, payload_high, payload_low]
      ++ msg_done
  (r.2, msg ++ gen_crc msg)

/-- One decoded message, as the dict built in `decode_rec_msg` (its
`'type'` key is `type_byte` here). -/
structure DecodedMsg where
  type_byte : Nat
  byte6 : Nat
  byte7 : Nat
  payload : List Nat
  full_message : List Nat
  receive_counter : Nat
  is_valid_type : Bool
deriving Repr, DecidableEq

/-- One pass through the body of `decode_rec_msg`'s `while True` loop ends
in one of three ways: a `return` (or a swallowed exception) leaving the
buffer as it stands, a `continue` after discarding the first `k` buffered
bytes, or a `continue` after enqueueing a decoded message and discarding
the `k` bytes up to and including its CRC byte. -/
inductive StepOut where
  | stop
  | skip (k : Nat)
  | emit (msg : DecodedMsg) (st' : CodecState) (k : Nat)
deriving Repr, DecidableEq

/-- The body of `decode_rec_msg`'s `while True` loop, line by line.  The two
exits where Python raises an exception that the method's `except` swallows —
reading `buffer[header_index+2]` when the buffer ends exactly there
(IndexError), and `int(f"C{None}", 16)` when the receive counter is unset
(ValueError) — are `stop`s, exactly as they leave queue and buffer. -/
def decodeStep (st : CodecState) (buf : List Nat) : StepOut :=
  match findSub buf ack 0 with
  | none => .stop
  | some ack_index =>
    let header_index := ack_index + 2
    if buf.length < header_index + 2 then .stop
    else if (buf.drop header_index).take 2 ≠ header then .skip (ack_index + 1)
    else if buf.length = header_index + 2 then .stop
    else
      let msg_type := buf.getD (header_index + 2) 0
      if ¬ (0xC4 ≤ msg_type ∧ msg_type ≤ 0xC7) then .skip (ack_index + 1)
      else
        match findSub buf msg_done header_index with
        | none => .stop
        | some done_index =>
          let crc_index := done_index + 2
          if buf.length ≤ crc_index then .stop
          else
            let crc := buf.getD crc_index 0
            let full_msg_body := (buf.drop header_index).take (done_index - header_index)
            let payload_for_crc := full_msg_body.drop 2
            if crc ≠ crc8 payload_for_crc then .skip (crc_index + 1)
            else
              match st.receive_counter_val with
              | none => .stop
              | some rc =>
                let newRc := bumpCounter rc
                let st' : CodecState := { st with receive_counter_val := some newRc }
                let expected_type := hexTag 0xC newRc
                let msg : DecodedMsg := {
                  type_byte := buf.getD (header_index + 2) 0
                  byte6 := buf.getD (header_index + 3) 0
                  byte7 := buf.getD (header_index + 4) 0
                  payload := (buf.drop (header_index + 5)).take (done_index - (header_index + 5))
                  full_message := (buf.drop ack_index).take (crc_index + 1 - ack_index)
                  receive_counter := newRc
                  is_valid_type := decide (buf.getD (header_index + 2) 0 = expected_type) }
                .emit msg st' (crc_index + 1)

/-- The `while True` loop of `decode_rec_msg`, with explicit fuel (each
continuing branch strictly shortens the buffer, so `buf.length + 1` fuel is
always enough).  Returns the final counter state, the messages enqueued (in
order) and the remaining buffer. -/
def decodeLoop : Nat → CodecState → List Nat → CodecState × List DecodedMsg × List Nat
  | 0, st, buf => (st, [], buf)
  | fuel + 1, st, buf =>
    match decodeStep st buf with
    | .stop => (st, [], buf)
    | .skip k => decodeLoop fuel st (buf.drop k)
    | .emit msg st' k =>
      let rest := decodeLoop fuel st' (buf.drop k)
      (rest.1, msg :: rest.2.1, rest.2.2)

/-- `decode_rec_msg`: the loop with enough fuel for any buffer. -/
def decode_rec_msg (st : CodecState) (buf : List Nat) :
    CodecState × List DecodedMsg × List Nat :=
  decodeLoop (buf.length + 1) st buf

/-- Buffer plus message queue of one `PackageHandler`. -/
structure HandlerState where
  codec : CodecState
  buffer : List Nat
  queue : List DecodedMsg
deriving Repr, DecidableEq

/-- `data_received(data)`: extend the buffer, then run the decoder;
decoded messages are appended to the queue. -/
def data_received (h : HandlerState) (chunk : List Nat) : HandlerState :=
  let buf := h.buffer ++ chunk
  let r := decode_rec_msg h.codec buf
  { codec := r.1, buffer := r.2.2, queue := h.queue ++ r.2.1 }

/-- Outcome of one round of the 10 ms polling loop inside `handshake` once
bytes are available: either the frame was accepted (carrying the accepted
frame-plus-CRC bytes, the bytes transmitted in response, and the remaining
buffer), or it was rejected (`return False`), or more bytes are needed. -/
inductive HandshakeResult where
  | success (st : CodecState) (accepted : List Nat) (sent : List (List Nat)) (buf : List Nat)
  | failure (st : CodecState) (buf : List Nat)
  | waiting (st : CodecState) (buf : List Nat)
deriving Repr, DecidableEq

/-- One body iteration of `handshake`'s polling loop (the 1 s deadline and
10 ms sleeps are real time and not modelled; this is the branch taken when
the buffer is inspected).  Mirrors the source line by line: the guard
`header in buffer and msg_done in buffer`, Python's `find(msg_done, start)`
returning -1 making `end = 1`, the buffer being consumed before the CRC is
validated, and the `IndexError` on `frame[2]` for a too-short frame being
swallowed by the method's `except` (which returns False). -/
def handshake_step (st : CodecState) (buf : List Nat) : HandshakeResult :=
  match findSub buf header 0, findSub buf msg_done 0 with
  | some start, some _ =>
    let endIdx := match findSub buf msg_done start with
      | some e => e + 2
      | none => 1
    if buf.length < endIdx + 1 then .waiting st buf
    else
      let frame := (buf.drop start).take (endIdx - start)
      let crc_byte := (buf.drop endIdx).take 1
      let full_msg := frame ++ crc_byte
      let buf' := buf.drop (endIdx + 1)
      if crc_byte ≠ [] ∧ crc_byte.getD 0 0 = calc_crc full_msg then
        if frame.length ≤ 2 then .failure st buf'
        else
          let st1 : CodecState :=
            { st with receive_counter_val := some (frame.getD 2 0 &&& 0x0F) }
          let r := increment_send_counter st1
          let byte3 := hexTag 8 r.1
          let msg := header ++ [byte3, 0x00, 0x00] ++ msg_done
          let payload := (msg.drop 2).take 3
          .success r.2 full_msg [ack, msg ++ [crc8 payload]] buf'
      else .failure st buf'
  | _, _ => .waiting st buf

/-- Channel catalogue entry, as the `ChannelConfig` dataclass of
parameter_request_handler.py (the Python float multipliers are carried as
rationals; no claim computes with them). -/
structure ChannelConfig where
  id_high : Nat
  id_low : Nat
  channel_id : Nat
  channel_name : String
  unit : String
  multiplier : ℚ
deriving Repr, DecidableEq

/-- The 19-entry channel catalogue of `ParameterRequestManager.__init__`. -/
def channels : List ChannelConfig :=
  [⟨0x03, 0x42, 834, "Power SW version", "", 1⟩,
   ⟨0x00, 0x01, 1, "Output Freq", "Hz", 1/100⟩,
   ⟨0x00, 0x19, 25, "Freq Ref.", "Hz", 1/100⟩,
   ⟨0x00, 0x02, 2, "Motor shaft speed", "rpm", 1⟩,
   ⟨0x00, 0x03, 3, "Motor Current", "A", 1/100⟩,
   ⟨0x00, 0x04, 4, "Motor Torque", "%", 1/10⟩,
   ⟨0x00, 0x05, 5, "Motor Power", "%", 1/10⟩,
   ⟨0x00, 0x06, 6, "Motor Voltage", "V", 1/10⟩,
   ⟨0x00, 0x09, 9, "Motor Temperature", "°C", 1⟩,
   ⟨0x00, 0x07, 7, "DC-link Voltage", "V", 1⟩,
   ⟨0x00, 0x08, 8, "Unit Temperature", "°C", 1⟩,
   ⟨0x07, 0x21, 1825, "Board Temp", "°C", 1⟩,
   ⟨0x07, 0x6B, 1899, "Service counter", "h", 1⟩,
   ⟨0x00, 0x0E, 14, "Reservoir Vacuum Level", "%", 1⟩,
   ⟨0x03, 0x3B, 827, "MWh Counter", "MW", 1/1000⟩,
   ⟨0x03, 0x3C, 828, "Power On Time:Days", "Days", 1⟩,
   ⟨0x03, 0x3D, 829, "Power On Time:Hours", "Hours", 1⟩,
   ⟨0x03, 0x48, 840, "Unit Run Time:Days", "Days", 1⟩,
   ⟨0x03, 0x49, 841, "Unit Run Time:Hours", "Hours", 1⟩]

/-- `self.messages = [(c.id_high, c.id_low, 0x00, 0x01) for c in self.channels]`. -/
def messages : List (Nat × Nat × Nat × Nat) :=
  channels.map (fun c => (c.id_high, c.id_low, 0x00, 0x01))

/-- Modelled from the spec: `send_custom_message(prefix_nibble, payload)` is
called by `run_keep_alive_cycle` in parameter_request_handler.py but its
definition is not among the repository's files; per the spec's outbound
construction, it composes `counter_byte = (prefix_nibble << 4) | c` with the
current send counter `c`, concatenates `HDR || counter_byte || payload ||
EOM`, appends the CRC-8 over `counter_byte || payload`, and transmits. -/
def send_custom_message (st : CodecState) (prefix_nib : Nat) (payload : List Nat) :
    CodecState × List Nat :=
  let r := increment_send_counter st
  let byte3 := (prefix_nib <<< 4) ||| r.1
  (r.2, header ++ (byte3 :: payload) ++ msg_done ++ [crc8 (byte3 :: payload)])

/-- The four hardcoded keep-alive payloads of `run_keep_alive_cycle`. -/
def keep_alive_payloads : List (List Nat) :=
  [[0x0B, 0x00, 0x02, 0x75, 0x00, 0x00],
   [0x0B, 0x00, 0x02, 0x66, 0x00, 0x00],
   [0x2A, 0x0C],
   [0x0B, 0x01, 0x03, 0x40, 0x00, 0x01]]

/-- The step sequence of `run_keep_alive_cycle`: for each payload in turn,
`send_custom_message(4, payload)`, then `await` one decoded message from the
queue (the 200 ms `wait_for` timeouts are real time: the oracle list
`replies` supplies `some` for a message arriving in time and `none` for an
`asyncio.TimeoutError`, which the method catches and converts to `return
False`), then `send_ack()`.  Returns the result, the final counter state and
the transmitted byte strings in order. -/
def kaSteps : CodecState → List (List Nat) → List (Option DecodedMsg) →
    Bool × CodecState × List (List Nat)
  | st, [], _ => (true, st, [])
  | st, p :: ps, replies =>
    let r := send_custom_message st 4 p
    match replies with
    | some _ :: rest =>
      let out := kaSteps r.1 ps rest
      (out.1, out.2.1, r.2 :: ack :: out.2.2)
    | _ => (false, r.1, [r.2])

/-- `run_keep_alive_cycle()`: the four keep-alive exchanges. -/
def run_keep_alive_cycle (st : CodecState) (replies : List (Option DecodedMsg)) :
    Bool × CodecState × List (List Nat) :=
  kaSteps st keep_alive_payloads replies

/-- What the supervisor loop in `ParameterRequestManager.run` does next. -/
inductive SessionAction where
  | teardown
  | continueSession
deriving Repr, DecidableEq

/-- Lines 135-136 of parameter_request_handler.py: a failed keep-alive cycle
raises `ConnectionAbortedError`, which the supervisor's handler converts to
closing the transport and reconnecting (session teardown). -/
def supervisor_on_keep_alive (cycle_ok : Bool) : SessionAction :=
  if cycle_ok then .continueSession else .teardown

/-- The datagram-emission decision of `ParameterRequestManager.run` (lines
150-168): abort (`none`) when fewer than 19 replies were gathered, format
each gathered item (the per-item float formatting of lines 154-161 is
abstracted as `fmt`), abort when the first formatted value is not "8",
otherwise emit `"VAC;PUMP1;"` followed by the remaining formatted values
joined by ";".  A `none` result is the `break` that restarts the session
with a new handshake. -/
def poll_emit {α : Type} (data : List α) (fmt : α → String) : Option String :=
  if data.length < 19 then none
  else
    match data.map fmt with
    | [] => none
    | f0 :: rest => if f0 ≠ "8" then none else some ("VAC;PUMP1;" ++ String.intercalate ";" rest)

/-- The consumed prefix of a buffer decomposes around the decoded messages:
each message's `full_message` (ACK through trailing CRC byte) appears in
order, possibly preceded by discarded junk. -/
def ConsumedBy : List Nat → List DecodedMsg → Prop
  | _, [] => True
  | buf, m :: ms => ∃ junk rest, buf = junk ++ m.full_message ++ rest ∧ ConsumedBy rest ms

/-- Codec state after `k` parameter-request sends from a fresh session. -/
def afterSends (k : Nat) : CodecState :=
  (fun s => (send_msg s 0x00 0x01 0x00 0x01).1)^[k] freshState

/-- An arbitrary decoded message, used to instantiate reply oracles. -/
def sampleMsg : DecodedMsg :=
  { type_byte := 0xC4, byte6 := 0, byte7 := 0, payload := [], full_message := [],
    receive_counter := 4, is_valid_type := true }

set_option maxRecDepth 4000

/-- The CRC-8/MAXIM check value: crc of the ASCII bytes of "123456789". -/
theorem crc8_check_value :
    crc8 [0x31, 0x32, 0x33, 0x34, 0x35, 0x36, 0x37, 0x38, 0x39] = 0xA1 := by decide

/-- A successful `find` lands at or after `start`, inside the buffer, and at
an actual occurrence of the pattern. -/
theorem findSub_bounds {buf pat : List Nat} {start i : Nat}
    (h : findSub buf pat start = some i) :
    start ≤ i ∧ i + pat.length ≤ buf.length ∧ pat.isPrefixOf (buf.drop i) = true := by
  unfold findSub at h
  have hp := List.find?_some h
  have hm := List.mem_of_find?_eq_some h
  rw [Bool.and_eq_true, decide_eq_true_eq] at hp
  have hpre : pat <+: buf.drop i := List.isPrefixOf_iff_prefix.mp hp.2
  have hlen : pat.length ≤ (buf.drop i).length := hpre.length_le
  rw [List.length_drop] at hlen
  have hi : i < buf.length + 1 := List.mem_range.mp hm
  exact ⟨hp.1, by omega, hp.2⟩

/-- Inversion of the decoder step at an `emit`: the positions found, the
counter bump, and the shape of the enqueued message. -/
theorem decodeStep_emit {st : CodecState} {buf : List Nat} {m : DecodedMsg}
    {st' : CodecState} {k : Nat} (h : decodeStep st buf = .emit m st' k) :
    ∃ ai di rc, findSub buf ack 0 = some ai ∧
      findSub buf msg_done (ai + 2) = some di ∧
      st.receive_counter_val = some rc ∧
      st' = { st with receive_counter_val := some (bumpCounter rc) } ∧
      k = di + 3 ∧ di + 2 < buf.length ∧
      m.receive_counter = bumpCounter rc ∧
      m.is_valid_type = decide (m.type_byte = hexTag 0xC (bumpCounter rc)) ∧
      m.full_message = (buf.drop ai).take (di + 3 - ai) := by
  unfold decodeStep at h
  split at h
  · exact absurd h (by simp)
  next ai hai =>
    dsimp only [] at h
    split_ifs at h with h1 h2 h3 h4 <;> try exact StepOut.noConfusion h
    split at h
    · exact absurd h (by simp)
    next di hdi =>
      split_ifs at h with h5 h6 <;> try exact StepOut.noConfusion h
      split at h
      · exact absurd h (by simp)
      next rc hrc =>
        rw [StepOut.emit.injEq] at h
        obtain ⟨hm, hst, hk⟩ := h
        refine ⟨ai, di, rc, hai, hdi, hrc, hst.symm, by omega, by omega, ?_, ?_, ?_⟩
        · rw [← hm]
        · rw [← hm]
        · rw [← hm]

/-- Inversion of a successful handshake poll: the slice arithmetic of the
accepted frame, the consumed prefix, and the recorded receive counter. -/
theorem handshake_success_inv {st st' : CodecState} {buf acc buf' : List Nat}
    {sent : List (List Nat)}
    (h : handshake_step st buf = .success st' acc sent buf') :
    ∃ start endIdx,
      findSub buf header 0 = some start ∧
      endIdx + 1 ≤ buf.length ∧
      2 < ((buf.drop start).take (endIdx - start)).length ∧
      acc = (buf.drop start).take (endIdx - start) ++ (buf.drop endIdx).take 1 ∧
      buf' = buf.drop (endIdx + 1) ∧
      st'.receive_counter_val =
        some (((buf.drop start).take (endIdx - start)).getD 2 0 &&& 0x0F) := by
  unfold handshake_step at h
  split at h
  case _ start e0 hs he0 =>
    dsimp only [] at h
    split_ifs at h with h1 h2 h3 <;> try exact HandshakeResult.noConfusion h
    rw [HandshakeResult.success.injEq] at h
    obtain ⟨hst, hacc, hsent, hbuf⟩ := h
    refine ⟨start, _, hs, by omega, by omega, hacc.symm, hbuf.symm, ?_⟩
    rw [← hst]
    simp [increment_send_counter]
  case _ =>
    exact absurd h (by simp)

/-- Junk in front of a consumed region is still a valid decomposition. -/
theorem consumedBy_append_left (j : List Nat) {c : List Nat} {msgs : List DecodedMsg}
    (h : ConsumedBy c msgs) : ConsumedBy (j ++ c) msgs := by
  cases msgs with
  | nil => trivial
  | cons m ms =>
    obtain ⟨junk, rest, hc, hrest⟩ := h
    exact ⟨j ++ junk, rest, by simp [hc], hrest⟩

/-- The decoder only ever drops a prefix of the buffer, and that prefix
decomposes around the enqueued messages' full byte spans. -/
theorem decodeLoop_consumes : ∀ (fuel : Nat) (st : CodecState) (buf : List Nat),
    ∃ consumed, buf = consumed ++ (decodeLoop fuel st buf).2.2 ∧
      ConsumedBy consumed (decodeLoop fuel st buf).2.1 := by
  intro fuel
  induction fuel with
  | zero =>
    intro st buf
    exact ⟨[], by simp [decodeLoop], by simp [decodeLoop, ConsumedBy]⟩
  | succ n ih =>
    intro st buf
    rcases hstep : decodeStep st buf with _ | k | ⟨m, st2, k⟩
    · exact ⟨[], by simp [decodeLoop, hstep], by simp [decodeLoop, hstep, ConsumedBy]⟩
    · obtain ⟨c, hc, hcb⟩ := ih st (buf.drop k)
      refine ⟨buf.take k ++ c, ?_, ?_⟩
      · simp only [decodeLoop, hstep, List.append_assoc]
        rw [← hc, List.take_append_drop]
      · simpa only [decodeLoop, hstep] using consumedBy_append_left (buf.take k) hcb
    · obtain ⟨c, hc, hcb⟩ := ih st2 (buf.drop k)
      obtain ⟨ai, di, rc, hai, hdi, -, -, hk, hlen, -, -, hfull⟩ := decodeStep_emit hstep
      have hai2 := findSub_bounds hai
      have hdi2 := findSub_bounds hdi
      refine ⟨buf.take ai ++ (m.full_message ++ c), ?_, ?_⟩
      · simp only [decodeLoop, hstep, List.append_assoc]
        rw [← hc, hfull, hk]
        have he : di + 3 = ai + (di + 3 - ai) := by omega
        conv_lhs => rw [← List.take_append_drop (di + 3) buf, he, List.take_add]
        rw [List.append_assoc, ← he]
      · simp only [decodeLoop, hstep]
        exact ⟨buf.take ai, c, by simp, hcb⟩

/-- Once in the range [4,7], the receive counter stays there across any
run of the steady-state decoder. -/
theorem decodeLoop_rc_range : ∀ (fuel : Nat) (st : CodecState) (buf : List Nat),
    (∀ rc, st.receive_counter_val = some rc → 4 ≤ rc ∧ rc ≤ 7) →
    ∀ rc', ((decodeLoop fuel st buf).1).receive_counter_val = some rc' →
      4 ≤ rc' ∧ rc' ≤ 7 := by
  intro fuel
  induction fuel with
  | zero =>
    intro st buf hst rc' h
    exact hst rc' (by simpa [decodeLoop] using h)
  | succ n ih =>
    intro st buf hst rc' h
    rcases hstep : decodeStep st buf with _ | k | ⟨m, st2, k⟩
    · rw [decodeLoop] at h
      rw [hstep] at h
      exact hst rc' h
    · rw [decodeLoop] at h
      rw [hstep] at h
      exact ih st (buf.drop k) hst rc' h
    · rw [decodeLoop] at h
      rw [hstep] at h
      obtain ⟨ai, di, rc, -, -, hrc, hst2, -, -, -, -, -⟩ := decodeStep_emit hstep
      refine ih st2 (buf.drop k) ?_ rc' h
      intro v hv
      rw [hst2] at hv
      simp only [Option.some.injEq] at hv
      have hb := hst rc hrc
      unfold bumpCounter at hv
      split at hv <;> omega

/-- Each accepted frame advances the receive counter by exactly one wrapped
increment, whatever its type byte is: after a decode run the counter is the
bump iterated once per enqueued message. -/
theorem decodeLoop_rc_evolution : ∀ (fuel : Nat) (st : CodecState) (buf : List Nat)
    (rc : Nat), st.receive_counter_val = some rc →
    ((decodeLoop fuel st buf).1).receive_counter_val =
      some (bumpCounter^[(decodeLoop fuel st buf).2.1.length] rc) := by
  intro fuel
  induction fuel with
  | zero =>
    intro st buf rc hst
    simpa [decodeLoop] using hst
  | succ n ih =>
    intro st buf rc hst
    rcases hstep : decodeStep st buf with _ | k | ⟨m, st2, k⟩
    · simp only [decodeLoop, hstep]
      simpa using hst
    · simp only [decodeLoop, hstep]
      exact ih st (buf.drop k) rc hst
    · simp only [decodeLoop, hstep]
      obtain ⟨ai, di, rc0, -, -, hrc, hst2, -, -, -, -, -⟩ := decodeStep_emit hstep
      obtain rfl : rc0 = rc := Option.some.inj (hrc.symm.trans hst)
      have h2 := ih st2 (buf.drop k) (bumpCounter rc0) (by rw [hst2])
      simp only [List.length_cons, Function.iterate_succ_apply]
      exact h2

/-- Every message the decoder enqueues is marked valid exactly when its type
byte equals `0xC0 | advanced-counter`; the counter itself is never
overwritten from the type byte. -/
theorem decodeLoop_msgs_valid : ∀ (fuel : Nat) (st : CodecState) (buf : List Nat)
    (m : DecodedMsg), m ∈ (decodeLoop fuel st buf).2.1 →
    m.is_valid_type = decide (m.type_byte = hexTag 0xC m.receive_counter) := by
  intro fuel
  induction fuel with
  | zero =>
    intro st buf m hm
    simp [decodeLoop] at hm
  | succ n ih =>
    intro st buf m hm
    rcases hstep : decodeStep st buf with _ | k | ⟨m0, st2, k⟩
    · rw [decodeLoop] at hm
      rw [hstep] at hm
      simp at hm
    · rw [decodeLoop] at hm
      rw [hstep] at hm
      exact ih st (buf.drop k) m hm
    · rw [decodeLoop] at hm
      rw [hstep] at hm
      simp only [List.mem_cons] at hm
      rcases hm with rfl | hm
      · obtain ⟨ai, di, rc, -, -, -, -, -, -, hcnt, hvalid, -⟩ := decodeStep_emit hstep
        rw [hvalid, hcnt]
      · exact ih st2 (buf.drop k) m hm

/-- A decomposition `buf = A ++ R` means `A` is the prefix of `buf` of
length `buf.length - R.length`. -/
theorem prefix_take_of_append {A R buf : List Nat} (h : buf = A ++ R) :
    buf.take (buf.length - R.length) = A := by
  subst h
  rw [List.length_append, Nat.add_sub_cancel, List.take_left]

/-- The send counter after `k` sends from a fresh session is `4 + k % 4`. -/
theorem afterSends_counter (k : Nat) : (afterSends k).send_counter_val = 4 + k % 4 := by
  induction k with
  | zero => rfl
  | succ n ih =>
    have hs : afterSends (n + 1) = (send_msg (afterSends n) 0x00 0x01 0x00 0x01).1 :=
      Function.iterate_succ_apply' _ _ _
    rw [hs]
    show bumpCounter (afterSends n).send_counter_val = 4 + (n + 1) % 4
    rw [ih]
    unfold bumpCounter
    split <;> omega

/-- Byte 3 of any frame `send_msg` builds is the counter tag. -/
theorem send_msg_byte3 (st : CodecState) (ih il ph pl : Nat) :
    ((send_msg st ih il ph pl).2).getD 2 0 = hexTag 4 st.send_counter_val := rfl

/-- C4: fed the byte stream `10 02 C4 AA BB 10 03 crc` (with `crc` the
CRC-8/MAXIM over `C4 AA BB`), a fresh session's handshake accepts the frame,
emits the ACK `10 06`, sets the receive counter to 4, and emits the
completion frame `10 02 84 00 00 10 03` followed by the CRC-8/MAXIM of
`84 00 00`. -/
theorem C4_handshake_accepts_valid_frame :
    handshake_step freshState
        [0x10, 0x02, 0xC4, 0xAA, 0xBB, 0x10, 0x03, crc8 [0xC4, 0xAA, 0xBB]] =
      .success { send_counter_val := 5, receive_counter_val := some 4 }
        [0x10, 0x02, 0xC4, 0xAA, 0xBB, 0x10, 0x03, crc8 [0xC4, 0xAA, 0xBB]]
        [ack, [0x10, 0x02, 0x84, 0x00, 0x00, 0x10, 0x03, crc8 [0x84, 0x00, 0x00]]]
        [] := by
  decide

/-- C1 counterexample: with `receive_counter = 4`, a CRC-valid inbound frame
with type byte 0xC7 is delivered with `is_valid_type = false` (not `true`)
and the receive counter becomes 5 (not 7): the codec does not resynchronise
from the type byte. -/
theorem C1_counterexample_no_silent_resync :
    (decode_rec_msg { send_counter_val := 4, receive_counter_val := some 4 }
        [0x10, 0x06, 0x10, 0x02, 0xC7, 0x00, 0x00, 0x10, 0x03,
         crc8 [0xC7, 0x00, 0x00]]).1.receive_counter_val = some 5
    ∧ (decode_rec_msg { send_counter_val := 4, receive_counter_val := some 4 }
        [0x10, 0x06, 0x10, 0x02, 0xC7, 0x00, 0x00, 0x10, 0x03,
         crc8 [0xC7, 0x00, 0x00]]).2.1.map DecodedMsg.is_valid_type = [false]
    ∧ decide ((decode_rec_msg { send_counter_val := 4, receive_counter_val := some 4 }
        [0x10, 0x06, 0x10, 0x02, 0xC7, 0x00, 0x00, 0x10, 0x03,
         crc8 [0xC7, 0x00, 0x00]]).1.receive_counter_val = some 7) = false
    ∧ decide ((decode_rec_msg { send_counter_val := 4, receive_counter_val := some 4 }
        [0x10, 0x06, 0x10, 0x02, 0xC7, 0x00, 0x00, 0x10, 0x03,
         crc8 [0xC7, 0x00, 0x00]]).2.1.map DecodedMsg.is_valid_type = [true]) = false := by
  decide

/-- C1 (amended): on each accepted inbound steady-state frame the receive
counter advances by exactly one wrapped increment, whatever the type byte
is — there is no resynchronisation from the type byte and no sync_error
flag — and the frame is delivered with `is_valid_type` true iff the type
byte equals `0xC0 |` the advanced counter; concretely, with
`receive_counter = 4`, a CRC-valid inbound frame with type byte 0xC7 is
delivered with `is_valid_type = false` and the counter becomes 5. -/
theorem C1_mismatch_frame_delivered_without_resync :
    (∀ (fuel : Nat) (st : CodecState) (buf : List Nat) (m : DecodedMsg),
        m ∈ (decodeLoop fuel st buf).2.1 →
        m.is_valid_type = decide (m.type_byte = hexTag 0xC m.receive_counter))
    ∧ (∀ (fuel : Nat) (st : CodecState) (buf : List Nat) (rc : Nat),
        st.receive_counter_val = some rc →
        ((decodeLoop fuel st buf).1).receive_counter_val =
          some (bumpCounter^[(decodeLoop fuel st buf).2.1.length] rc))
    ∧ decode_rec_msg { send_counter_val := 4, receive_counter_val := some 4 }
          [0x10, 0x06, 0x10, 0x02, 0xC7, 0x00, 0x00, 0x10, 0x03,
           crc8 [0xC7, 0x00, 0x00]] =
        ({ send_counter_val := 4, receive_counter_val := some 5 },
         [{ type_byte := 0xC7, byte6 := 0x00, byte7 := 0x00, payload := [],
            full_message := [0x10, 0x06, 0x10, 0x02, 0xC7, 0x00, 0x00, 0x10, 0x03,
                             crc8 [0xC7, 0x00, 0x00]],
            receive_counter := 5, is_valid_type := false }], []) :=
  ⟨decodeLoop_msgs_valid, decodeLoop_rc_evolution, by decide⟩

/-- C6 counterexample: a CRC-valid first peer frame whose counter byte has
low nibble 9 (type byte 0xC9) makes the handshake set the receive counter
to 9, which is outside [4,7]. -/
theorem C6_counterexample_nibble_outside_range :
    handshake_step freshState
        [0x10, 0x02, 0xC9, 0xAA, 0xBB, 0x10, 0x03, crc8 [0xC9, 0xAA, 0xBB]] =
      .success { send_counter_val := 5, receive_counter_val := some 9 }
        [0x10, 0x02, 0xC9, 0xAA, 0xBB, 0x10, 0x03, crc8 [0xC9, 0xAA, 0xBB]]
        [ack, [0x10, 0x02, 0x84, 0x00, 0x00, 0x10, 0x03, crc8 [0x84, 0x00, 0x00]]]
        []
    ∧ decide (4 ≤ 9 ∧ 9 ≤ 7) = false := by
  decide

/-- C6 (amended): the handshake records the low nibble of the accepted
frame's counter byte unchecked, so the receive counter lies in [4,7]
between operations only under the proviso that this nibble lies in [4,7];
under that proviso every steady-state decode run preserves the range. -/
theorem C6_receive_counter_range_conditional :
    (∀ (st st' : CodecState) (buf acc buf' : List Nat) (sent : List (List Nat)),
        handshake_step st buf = .success st' acc sent buf' →
        st'.receive_counter_val = some (acc.getD 2 0 &&& 0x0F))
    ∧ (∀ (st : CodecState),
        (∀ rc, st.receive_counter_val = some rc → 4 ≤ rc ∧ rc ≤ 7) →
        ∀ (fuel : Nat) (buf : List Nat) (rc' : Nat),
          ((decodeLoop fuel st buf).1).receive_counter_val = some rc' →
          4 ≤ rc' ∧ rc' ≤ 7)
    ∧ (decode_rec_msg { send_counter_val := 4, receive_counter_val := some 7 }
          [0x10, 0x06, 0x10, 0x02, 0xC4, 0x00, 0x00, 0x10, 0x03,
           crc8 [0xC4, 0x00, 0x00]]).1.receive_counter_val = some 4 := by
  refine ⟨?_, ?_, by decide⟩
  · intro st st' buf acc buf' sent h
    obtain ⟨start, endIdx, -, -, hfl, hacc, -, hrc⟩ := handshake_success_inv h
    rw [hrc, hacc]
    congr 2
    exact (List.getD_append _ _ _ _ hfl).symm
  · intro st hst fuel buf rc' h
    exact decodeLoop_rc_range fuel st buf hst rc' h

/-- C9 counterexample: the chunks `10 02 C4 AA`, `BB 10`, `03 crc` as given
(with `crc` the correct CRC over `C4 AA BB`) contain no ACK `10 06`, so the
steady-state decoder run by `data_received` never finds a frame: the queue
is still empty after the third chunk, not of size one. -/
theorem C9_counterexample_no_ack_in_stream :
    (data_received (data_received (data_received
        { codec := { send_counter_val := 4, receive_counter_val := some 7 },
          buffer := [], queue := [] }
        [0x10, 0x02, 0xC4, 0xAA]) [0xBB, 0x10])
        [0x03, crc8 [0xC4, 0xAA, 0xBB]]).queue = []
    ∧ decide ((data_received (data_received (data_received
        { codec := { send_counter_val := 4, receive_counter_val := some 7 },
          buffer := [], queue := [] }
        [0x10, 0x02, 0xC4, 0xAA]) [0xBB, 0x10])
        [0x03, crc8 [0xC4, 0xAA, 0xBB]]).queue.length = 1) = false := by
  decide

/-- C9 (amended): the frame must be preceded by the peer ACK `10 06` and the
receive counter must already be set; feeding `10 06 10 02 C4 AA`, then
`BB 10`, then `03 crc` one chunk at a time produces no decoded frame after
the first two chunks and exactly one after the third. -/
theorem C9_partial_chunks_one_frame :
    (data_received
        { codec := { send_counter_val := 4, receive_counter_val := some 7 },
          buffer := [], queue := [] }
        [0x10, 0x06, 0x10, 0x02, 0xC4, 0xAA]).queue = []
    ∧ (data_received (data_received
        { codec := { send_counter_val := 4, receive_counter_val := some 7 },
          buffer := [], queue := [] }
        [0x10, 0x06, 0x10, 0x02, 0xC4, 0xAA]) [0xBB, 0x10]).queue = []
    ∧ (data_received (data_received (data_received
        { codec := { send_counter_val := 4, receive_counter_val := some 7 },
          buffer := [], queue := [] }
        [0x10, 0x06, 0x10, 0x02, 0xC4, 0xAA]) [0xBB, 0x10])
        [0x03, crc8 [0xC4, 0xAA, 0xBB]]).queue.length = 1 := by
  decide

/-- C10: when `decode_rec_msg` reaches a complete, CRC-valid steady-state
frame while the receive counter is still unset, the `int(f"C{None}", 16)`
exception is swallowed by the method's handler (nothing propagates to the
caller) and both the message queue and the byte buffer are left exactly as
they were: the frame is neither delivered nor consumed. -/
theorem C10_unset_counter_frame_not_consumed :
    (∀ (st : CodecState) (buf : List Nat) (a d : Nat),
        st.receive_counter_val = none →
        findSub buf ack 0 = some a →
        (buf.drop (a + 2)).take 2 = header →
        a + 4 < buf.length →
        0xC4 ≤ buf.getD (a + 4) 0 →
        buf.getD (a + 4) 0 ≤ 0xC7 →
        findSub buf msg_done (a + 2) = some d →
        d + 2 < buf.length →
        buf.getD (d + 2) 0 = crc8 (((buf.drop (a + 2)).take (d - (a + 2))).drop 2) →
        decode_rec_msg st buf = (st, [], buf))
    ∧ decode_rec_msg freshState
        [0x10, 0x06, 0x10, 0x02, 0xC4, 0x00, 0x00, 0x10, 0x03, crc8 [0xC4, 0x00, 0x00]] =
      (freshState, [],
       [0x10, 0x06, 0x10, 0x02, 0xC4, 0x00, 0x00, 0x10, 0x03, crc8 [0xC4, 0x00, 0x00]]) := by
  refine ⟨?_, by decide⟩
  intro st buf a d hrc hack hhdr hlen3 ht1 ht2 hdone hlen2 hcrc
  have hstep : decodeStep st buf = .stop := by
    unfold decodeStep
    rw [hack]
    dsimp only []
    rw [if_neg (by omega), if_neg (by simp [hhdr]), if_neg (by omega),
        if_neg (not_not.mpr ⟨ht1, ht2⟩), hdone]
    dsimp only []
    rw [if_neg (by omega), if_neg (not_not.mpr hcrc), hrc]
  unfold decode_rec_msg
  simp only [decodeLoop, hstep]

/-- C8: in both steady-state decoding and the handshake, whenever a frame
is successfully decoded every byte up to and including its trailing CRC
byte is removed from the byte buffer: the remaining buffer is the suffix
after the consumed prefix, and the consumed prefix decomposes around the
decoded frames' full byte spans in order, so those bytes are never reread
by a later decode. -/
theorem C8_buffer_monotonically_consumed :
    (∀ (fuel : Nat) (st : CodecState) (buf : List Nat) (st' : CodecState)
        (msgs : List DecodedMsg) (buf' : List Nat),
        decodeLoop fuel st buf = (st', msgs, buf') →
        buf = buf.take (buf.length - buf'.length) ++ buf' ∧
        ConsumedBy (buf.take (buf.length - buf'.length)) msgs)
    ∧ (∀ (st st' : CodecState) (buf acc buf' : List Nat) (sent : List (List Nat)),
        handshake_step st buf = .success st' acc sent buf' →
        buf = buf.take (buf.length - (acc ++ buf').length) ++ (acc ++ buf'))
    ∧ decode_rec_msg { send_counter_val := 4, receive_counter_val := some 4 }
        (0xAB :: [0x10, 0x06, 0x10, 0x02, 0xC4, 0x00, 0x00, 0x10, 0x03,
                  crc8 [0xC4, 0x00, 0x00]]) =
      ({ send_counter_val := 4, receive_counter_val := some 5 },
       [{ type_byte := 0xC4, byte6 := 0x00, byte7 := 0x00, payload := [],
          full_message := [0x10, 0x06, 0x10, 0x02, 0xC4, 0x00, 0x00, 0x10, 0x03,
                           crc8 [0xC4, 0x00, 0x00]],
          receive_counter := 5, is_valid_type := false }], []) := by
  refine ⟨?_, ?_, by decide⟩
  · intro fuel st buf st' msgs buf' h
    obtain ⟨c, hc, hcb⟩ := decodeLoop_consumes fuel st buf
    rw [h] at hc hcb
    have ht := prefix_take_of_append hc
    refine ⟨?_, ?_⟩
    · rw [ht]; exact hc
    · rw [ht]; exact hcb
  · intro st st' buf acc buf' sent h
    obtain ⟨start, endIdx, -, hend, -, hacc, hbuf', -⟩ := handshake_success_inv h
    have key : ∃ A, buf = A ++ (acc ++ buf') := by
      rcases Nat.le_total start endIdx with hcase | hcase
      · refine ⟨buf.take start, ?_⟩
        have e3 : buf.take endIdx = buf.take start ++ (buf.drop start).take (endIdx - start) := by
          conv_lhs => rw [show endIdx = start + (endIdx - start) by omega]
          rw [List.take_add]
        calc buf = buf.take (endIdx + 1) ++ buf.drop (endIdx + 1) :=
              (List.take_append_drop _ _).symm
          _ = (buf.take endIdx ++ (buf.drop endIdx).take 1) ++ buf.drop (endIdx + 1) := by
              rw [List.take_add]
          _ = buf.take start ++ (acc ++ buf') := by
              rw [e3, hacc, hbuf']
              simp [List.append_assoc]
      · refine ⟨buf.take endIdx, ?_⟩
        calc buf = buf.take (endIdx + 1) ++ buf.drop (endIdx + 1) :=
              (List.take_append_drop _ _).symm
          _ = (buf.take endIdx ++ (buf.drop endIdx).take 1) ++ buf.drop (endIdx + 1) := by
              rw [List.take_add]
          _ = buf.take endIdx ++ (acc ++ buf') := by
              rw [hacc, hbuf', show endIdx - start = 0 by omega]
              simp [List.append_assoc]
    obtain ⟨A, key⟩ := key
    rw [prefix_take_of_append key]
    exact key

/-- C7: each outbound send returns the current send counter and bumps it,
7 wrapping to 4: from a fresh session the i-th parameter-request frame
carries counter byte `0x44 + (i-1) % 4`, the counter stays in [4,7] between
operations, and the first five sends use counter values 4, 5, 6, 7, 4. -/
theorem C7_send_counter_wraps :
    (∀ i : Nat, 1 ≤ i →
        ((send_msg (afterSends (i - 1)) 0x00 0x01 0x00 0x01).2).getD 2 0 =
          0x44 + (i - 1) % 4)
    ∧ (∀ k : Nat, 4 ≤ (afterSends k).send_counter_val ∧ (afterSends k).send_counter_val ≤ 7)
    ∧ ((afterSends 0).send_counter_val = 4 ∧ (afterSends 1).send_counter_val = 5 ∧
       (afterSends 2).send_counter_val = 6 ∧ (afterSends 3).send_counter_val = 7 ∧
       (afterSends 4).send_counter_val = 4) := by
  refine ⟨?_, ?_, by decide⟩
  · intro i hi
    rw [send_msg_byte3, afterSends_counter]
    unfold hexTag
    rw [if_pos (by omega)]
    omega
  · intro k
    rw [afterSends_counter]
    omega

/-- C5 counterexample: the first send of a fresh session transmits
`10 02 44 0B 01 00 01 00 01 10 03 F3`, not `... 6A`: the CRC-8/MAXIM of
`44 0B 01 00 01 00 01` is 0xF3, not 0x6A. -/
theorem C5_counterexample_crc_byte :
    (send_msg freshState 0x00 0x01 0x00 0x01).2 =
      [0x10, 0x02, 0x44, 0x0B, 0x01, 0x00, 0x01, 0x00, 0x01, 0x10, 0x03, 0xF3]
    ∧ crc8 [0x44, 0x0B, 0x01, 0x00, 0x01, 0x00, 0x01] = 0xF3
    ∧ decide ((send_msg freshState 0x00 0x01 0x00 0x01).2 =
        [0x10, 0x02, 0x44, 0x0B, 0x01, 0x00, 0x01, 0x00, 0x01, 0x10, 0x03, 0x6A]) = false
    ∧ decide (crc8 [0x44, 0x0B, 0x01, 0x00, 0x01, 0x00, 0x01] = 0x6A) = false := by
  decide

/-- C5 (amended): every parameter-request frame `send_msg` builds for the
program's channel catalogue carries a trailing byte equal to the CRC-8/MAXIM
of the frame body strictly between HDR and EOM (the counter byte followed
by the 6-byte payload); the first send of a fresh session transmits exactly
`10 02 44 0B 01 00 01 00 01 10 03 F3`, the CRC-8/MAXIM of
`44 0B 01 00 01 00 01` being 0xF3. -/
theorem C5_send_msg_crc_trailer :
    (∀ (st : CodecState) (ih il ph pl : Nat), (ih, il, ph, pl) ∈ messages →
        4 ≤ st.send_counter_val → st.send_counter_val ≤ 7 →
        (send_msg st ih il ph pl).2 =
          header ++ [0x40 + st.send_counter_val, 0x0B, 0x01, ih, il, ph, pl] ++
            msg_done ++ [crc8 [0x40 + st.send_counter_val, 0x0B, 0x01, ih, il, ph, pl]])
    ∧ (send_msg freshState 0x00 0x01 0x00 0x01).2 =
        [0x10, 0x02, 0x44, 0x0B, 0x01, 0x00, 0x01, 0x00, 0x01, 0x10, 0x03,
         crc8 [0x44, 0x0B, 0x01, 0x00, 0x01, 0x00, 0x01]]
    ∧ crc8 [0x44, 0x0B, 0x01, 0x00, 0x01, 0x00, 0x01] = 0xF3 := by
  refine ⟨?_, by decide, by decide⟩
  rintro ⟨c, rv⟩ ih il ph pl hm h4 h7
  have h4' : 4 ≤ c := h4
  have h7' : c ≤ 7 := h7
  simp only [messages, channels, List.map_cons, List.map_nil, List.mem_cons,
    List.not_mem_nil, or_false, Prod.mk.injEq] at hm
  rcases hm with h|h|h|h|h|h|h|h|h|h|h|h|h|h|h|h|h|h|h <;>
    obtain ⟨rfl, rfl, rfl, rfl⟩ := h <;> interval_cases c <;>
      (dsimp only [send_msg, increment_send_counter]; decide)

/-- C3: the poll cycle emits a datagram iff 19 replies were gathered and
the first formatted value is "8"; the datagram is `"VAC;PUMP1;"` followed
by the remaining formatted values joined by ";" (the first value is
consumed by the gate and excluded from the body); otherwise no datagram is
emitted and the session restarts with a new handshake. -/
theorem C3_poll_emission_gate :
    (∀ (α : Type) (data : List α) (fmt : α → String) (s : String),
        poll_emit data fmt = some s ↔
          19 ≤ data.length ∧ (data.map fmt).head? = some "8" ∧
          s = "VAC;PUMP1;" ++ String.intercalate ";" ((data.map fmt).tail))
    ∧ poll_emit (["8", "1", "2"] ++ List.replicate 16 "0") (fun s => s) =
        some ("VAC;PUMP1;" ++ String.intercalate ";" (["1", "2"] ++ List.replicate 16 "0"))
    ∧ poll_emit (["9"] ++ List.replicate 18 "0") (fun s => s) = none
    ∧ poll_emit ["8"] (fun s => s) = none := by
  refine ⟨?_, by decide, by decide, by decide⟩
  intro α data fmt s
  unfold poll_emit
  by_cases hlen : data.length < 19
  · rw [if_pos hlen]
    constructor
    · intro h; exact absurd h (by simp)
    · rintro ⟨h19, -, -⟩; omega
  · rw [if_neg hlen]
    rcases data with _ | ⟨a, as⟩
    · simp at hlen
    · simp only [List.map_cons]
      by_cases h8 : fmt a = "8"
      · rw [if_neg (not_not.mpr h8)]
        constructor
        · intro h
          refine ⟨by simpa using hlen, by simp [h8], ?_⟩
          simpa using h.symm
        · rintro ⟨-, -, rfl⟩
          simp
      · rw [if_pos h8]
        constructor
        · intro h; exact absurd h (by simp)
        · rintro ⟨-, hh, -⟩
          exact absurd (by simpa using hh) h8

/-- C2: one keep-alive cycle performs four back-to-back exchanges with
prefix nibble 4 and the hardcoded payloads `0B 00 02 75 00 00`,
`0B 00 02 66 00 00`, `2A 0C`, `0B 01 03 40 00 01`, each sending the custom
frame, awaiting one decoded reply (the 200 ms timeout is the reply oracle
yielding `none`) and then sending an ACK; it returns True exactly when all
four replies arrive, any timeout makes it return False, and a False cycle
makes the supervisor tear the session down. -/
theorem C2_keep_alive_cycle :
    (∀ (st : CodecState) (m1 m2 m3 m4 : DecodedMsg) (rest : List (Option DecodedMsg)),
        run_keep_alive_cycle st (some m1 :: some m2 :: some m3 :: some m4 :: rest) =
          (let r1 := send_custom_message st 4 [0x0B, 0x00, 0x02, 0x75, 0x00, 0x00]
           let r2 := send_custom_message r1.1 4 [0x0B, 0x00, 0x02, 0x66, 0x00, 0x00]
           let r3 := send_custom_message r2.1 4 [0x2A, 0x0C]
           let r4 := send_custom_message r3.1 4 [0x0B, 0x01, 0x03, 0x40, 0x00, 0x01]
           (true, r4.1, [r1.2, ack, r2.2, ack, r3.2, ack, r4.2, ack])))
    ∧ (∀ (st : CodecState) (replies : List (Option DecodedMsg)),
        (run_keep_alive_cycle st replies).1 = true →
        ∃ m1 m2 m3 m4 rest,
          replies = some m1 :: some m2 :: some m3 :: some m4 :: rest)
    ∧ supervisor_on_keep_alive false = SessionAction.teardown
    ∧ supervisor_on_keep_alive true = SessionAction.continueSession
    ∧ (run_keep_alive_cycle freshState
        [some sampleMsg, some sampleMsg, some sampleMsg, some sampleMsg]).1 = true
    ∧ (run_keep_alive_cycle freshState
        [some sampleMsg, none, some sampleMsg, some sampleMsg]).1 = false := by
  refine ⟨fun st m1 m2 m3 m4 rest => rfl, ?_, rfl, rfl, by decide, by decide⟩
  intro st replies h
  rcases replies with _ | ⟨r1, replies⟩
  · simp [run_keep_alive_cycle, keep_alive_payloads, kaSteps] at h
  rcases r1 with _ | m1
  · simp [run_keep_alive_cycle, keep_alive_payloads, kaSteps] at h
  rcases replies with _ | ⟨r2, replies⟩
  · simp [run_keep_alive_cycle, keep_alive_payloads, kaSteps] at h
  rcases r2 with _ | m2
  · simp [run_keep_alive_cycle, keep_alive_payloads, kaSteps] at h
  rcases replies with _ | ⟨r3, replies⟩
  · simp [run_keep_alive_cycle, keep_alive_payloads, kaSteps] at h
  rcases r3 with _ | m3
  · simp [run_keep_alive_cycle, keep_alive_payloads, kaSteps] at h
  rcases replies with _ | ⟨r4, replies⟩
  · simp [run_keep_alive_cycle, keep_alive_payloads, kaSteps] at h
  rcases r4 with _ | m4
  · simp [run_keep_alive_cycle, keep_alive_payloads, kaSteps] at h
  exact ⟨m1, m2, m3, m4, replies, rfl⟩

end VacuumMonitor
